import Mathlib

/-!
Verification of the Yamale validator module (`yamale/validators/validators.py`)
and the top-level driver (`yamale/yamale.py`).

Strings are modelled as `List Char`; Python data values as the inductive type
`Value` below.  The regular-expression patterns used by `RedshiftDatatype` are
anchored at the start and built from the character classes `[a-zA-Z\s]`, `\d`
and literal characters only, so each one is embedded as a first-order
recognizer over `List Char` (ASCII fragment; the claims' inputs are ASCII).
Python exceptions are modelled by `Option`: a result of `none` means the
Python code raises.
-/

/-- Python data values as produced by the YAML reader: the data-tree node
type of the spec (Null, Boolean, Integer, Float, String, Date, Timestamp,
Sequence, Mapping).  Float payloads are a mantissa/exponent pair; no claim
inspects them. -/
inductive Value where
  | none_ : Value
  | bool (b : Bool) : Value
  | int (n : Int) : Value
  | float (m : Int) (e : Int) : Value
  | str (s : List Char) : Value
  | date (y m d : Nat) : Value
  | datetime (y mo d h mi sec : Nat) : Value
  | list (xs : List Value) : Value
  | dict (entries : List (Value × Value)) : Value

/-- Modelled from the spec: `util.isstr` (the `util` module is outside the
provided sources); per the spec's String validator it tests whether a data
value is a string. -/
def isstr : Value → Bool
  | Value.str _ => true
  | _ => false

/-- Python `isinstance(value, bool)`. -/
def isinstance_bool : Value → Bool
  | Value.bool _ => true
  | _ => false

/-- Python `isinstance(value, int)`: `bool` is a subclass of `int` in Python,
so booleans satisfy this check as well. -/
def isinstance_int : Value → Bool
  | Value.bool _ => true
  | Value.int _ => true
  | _ => false

/-- Python `isinstance(value, (int, float))`: booleans, integers and floats. -/
def isinstance_int_or_float : Value → Bool
  | Value.bool _ => true
  | Value.int _ => true
  | Value.float _ _ => true
  | _ => false

/-- Python `isinstance(value, collections.abc.Sequence)` on reader-produced
values: strings and lists are Sequences; mappings and scalars are not. -/
def isinstance_Sequence : Value → Bool
  | Value.str _ => true
  | Value.list _ => true
  | _ => false

/-- Python `isinstance(value, collections.abc.Mapping)`. -/
def isinstance_Mapping : Value → Bool
  | Value.dict _ => true
  | _ => false

/-- String.is_valid: `util.isstr(value)`. -/
def String_is_valid (v : Value) : Bool := isstr v

/-- Number._is_valid: `isinstance(value, (int, float))`. -/
def Number_is_valid (v : Value) : Bool := isinstance_int_or_float v

/-- Integer._is_valid: `isinstance(value, int)`. -/
def Integer_is_valid (v : Value) : Bool := isinstance_int v

/-- Boolean._is_valid: `isinstance(value, bool)`. -/
def Boolean_is_valid (v : Value) : Bool := isinstance_bool v

/-- Map._is_valid: `isinstance(value, Mapping)`. -/
def Map_is_valid (v : Value) : Bool := isinstance_Mapping v

/-- List._is_valid: `isinstance(value, Sequence) and not util.isstr(value)`. -/
def List_is_valid (v : Value) : Bool := isinstance_Sequence v && !(isstr v)

/-- Include._is_valid: `return True`. -/
def Include_is_valid (_ : Value) : Bool := true

/-- Any._is_valid: `return True`. -/
def Any_is_valid (_ : Value) : Bool := true

/-- Null._is_valid: `value is None`. -/
def Null_is_valid : Value → Bool
  | Value.none_ => true
  | _ => false

/-- Characters of the regex class `\s` (ASCII fragment): space, tab,
newline, carriage return, vertical tab, form feed. -/
def isSpaceChar (c : Char) : Bool :=
  c == ' ' || c == '\t' || c == '\n' || c == '\r' || c == '\x0b' || c == '\x0c'

/-- Characters of the regex class `[a-zA-Z\s]`. -/
def isAlphaSpace (c : Char) : Bool :=
  c.isAlpha || isSpaceChar c

/-- Characters of the regex class `\d` (ASCII fragment). -/
def isDigitChar (c : Char) : Bool :=
  c.isDigit

/-- Numeric value of a decimal digit string, as computed by Python `int`. -/
def digitsVal (l : List Char) : Nat :=
  l.foldl (fun n c => 10 * n + (c.toNat - '0'.toNat)) 0

/-- Python `int(x)` on the argument strings reachable in this module: a
non-empty all-digit string converts to its numeric value, anything else
(here only the literal `MAX`) raises `ValueError`, modelled as `none`. -/
def pyInt (l : List Char) : Option Nat :=
  if !l.isEmpty && l.all isDigitChar then some (digitsVal l) else none

/-- Python `x in xs` for a string and a list of strings. -/
def pyIn (x : List Char) : List (List Char) → Bool
  | [] => false
  | y :: ys => decide (y = x) || pyIn x ys

/-- Python dict lookup on a literal association list (keys are distinct in
every dict literal of the module, so first match is the binding). -/
def dictGet {α : Type} : List (List Char × α) → List Char → Option α
  | [], _ => none
  | kv :: rest, k => if kv.1 = k then some kv.2 else dictGet rest k

/-- RedshiftDatatype.aliases. -/
def aliases : List (List Char × List Char) :=
  [("CHAR".data, "CHAR".data), ("CHARACTER".data, "CHAR".data),
   ("BPCHAR".data, "CHAR".data), ("NCHAR".data, "CHAR".data),
   ("VARCHAR".data, "VARCHAR".data), ("CHARACTER VARYING".data, "VARCHAR".data),
   ("NVARCHAR".data, "VARCHAR".data)]

/-- RedshiftDatatype.str_ranges. -/
def str_ranges : List (List Char × (Nat × Nat)) :=
  [("CHAR".data, (1, 4096)), ("VARCHAR".data, (1, 65535))]

/-- RedshiftDatatype.num_ranges. -/
def num_ranges : List (List Char × (Nat × Nat)) :=
  [("PRECISION".data, (1, 38)), ("SCALE".data, (0, 37))]

/-- RedshiftDatatype.one_optional_arg. -/
def one_optional_arg : List (List Char) :=
  ["CHAR".data, "CHARACTER".data, "NCHAR".data, "BPCHAR".data, "VARCHAR".data,
   "CHARACTER VARYING".data, "NVARCHAR".data]

/-- RedshiftDatatype.two_optional_args. -/
def two_optional_args : List (List Char) :=
  ["DECIMAL".data, "NUMERIC".data]

/-- RedshiftDatatype.no_optional_args. -/
def no_optional_args : List (List Char) :=
  ["SMALLINT".data, "INT2".data, "INTEGER".data, "INT".data, "INT4".data,
   "BIGINT".data, "INT8".data, "REAL".data, "FLOAT4".data, "DATE".data,
   "DOUBLE PRECISION".data, "FLOAT8".data, "FLOAT".data, "BOOLEAN".data,
   "BOOL".data, "TIMESTAMP".data, "TIMESTAMPTZ".data,
   "TIMESTAMP WITHOUT TIME ZONE".data, "TIMESTAMP WITH TIME ZONE".data,
   "GEOMETRY".data, "TEXT".data]

/-- RedshiftDatatype.all_args = one_optional_arg + two_optional_args + no_optional_args. -/
def all_args : List (List Char) :=
  one_optional_arg ++ two_optional_args ++ no_optional_args

/-- Recognizer for the regex fragment `\d+\)` at the head of the input
(trailing characters are allowed: the patterns have no end anchor).  The
digit run is greedy; a digit is never `)`, so greedy matching is exact. -/
def matchDigitsClose (l : List Char) : Bool :=
  !(l.takeWhile isDigitChar).isEmpty &&
    decide ((l.dropWhile isDigitChar).head? = some ')')

/-- Recognizer for the regex fragment `(\d+|MAX)\)` at the head of the input. -/
def matchNumOrMaxClose (l : List Char) : Bool :=
  matchDigitsClose l || decide (l.take 4 = ['M', 'A', 'X', ')'])

/-- One optional literal space, the `[ ]?` of the two-argument pattern.  If a
space is present it must be consumed: declining it leaves the space in front
of the following `\d+`, which then fails, so no backtracking case is lost. -/
def dropOneSpace (l : List Char) : List Char :=
  if l.head? = some ' ' then l.tail else l

/-- Recognizer for the regex fragment `(\d+[,]{1}[ ]?\d+|MAX)\)` at the head
of the input. -/
def matchPairClose (l : List Char) : Bool :=
  (!(l.takeWhile isDigitChar).isEmpty &&
    decide ((l.dropWhile isDigitChar).head? = some ',') &&
    matchDigitsClose (dropOneSpace (l.dropWhile isDigitChar).tail))
  || decide (l.take 4 = ['M', 'A', 'X', ')'])

/-- RedshiftDatatype.single_arg_pattern `^[a-zA-Z\s]+\((\d+|MAX)\)`, tested
with `re.findall` (non-empty iff the anchored pattern matches).  The class
`[a-zA-Z\s]` never contains `(`, so the greedy prefix run is exact. -/
def matchSingleArgPattern (l : List Char) : Bool :=
  !(l.takeWhile isAlphaSpace).isEmpty &&
    decide ((l.dropWhile isAlphaSpace).head? = some '(') &&
    matchNumOrMaxClose (l.dropWhile isAlphaSpace).tail

/-- RedshiftDatatype.multiple_arg_pattern `^[a-zA-Z\s]+\((\d+[,]{1}[ ]?\d+|MAX)\)`. -/
def matchMultipleArgPattern (l : List Char) : Bool :=
  !(l.takeWhile isAlphaSpace).isEmpty &&
    decide ((l.dropWhile isAlphaSpace).head? = some '(') &&
    matchPairClose (l.dropWhile isAlphaSpace).tail

/-- Python `value.split('(')[0]`: the part before the first `(`. -/
def beforeParen (l : List Char) : List Char :=
  l.takeWhile (fun c => !decide (c = '('))

/-- Helper for `extractGroup`: the lazy `(.*?)\)` after an opening paren.
Collect characters up to the first `)`; `.` does not match a newline, and an
exhausted input means this start position fails. -/
def grabUntilClose : List Char → Option (List Char)
  | [] => none
  | c :: rest =>
    if c = ')' then some []
    else if c = '\n' then none
    else (grabUntilClose rest).map (fun g => c :: g)

/-- Python `re.search(r'\((.*?)\)', value)`, returning group 1: the leftmost
`(` from which a `)` is reachable without crossing a newline, with the lazily
matched content in between.  `none` models `search` returning `None`, in
which case `.group(1)` raises `AttributeError`. -/
def extractGroup : List Char → Option (List Char)
  | [] => none
  | c :: rest =>
    if c = '(' then
      match grabUntilClose rest with
      | some g => some g
      | none => extractGroup rest
    else extractGroup rest

/-- Python `s.split(",")`. -/
def splitComma : List Char → List (List Char)
  | [] => [[]]
  | c :: rest =>
    if c = ',' then [] :: splitComma rest
    else
      match splitComma rest with
      | [] => [[c]]
      | h :: t => (c :: h) :: t

/-- Python `[int(x) for x in parts]`, with `none` modelling the `ValueError`
raised at the first non-numeric part. -/
def mapIntAll : List (List Char) → Option (List Nat)
  | [] => some []
  | x :: xs => (pyInt x).bind (fun n => (mapIntAll xs).map (fun t => n :: t))

/-- RedshiftDatatype._is_valid.valid_without_argument:
`value.upper() in self.all_args` (Python `str.upper` on ASCII input is
`Char.toUpper` pointwise). -/
def valid_without_argument (v : List Char) : Bool :=
  pyIn (v.map Char.toUpper) all_args

/-- RedshiftDatatype._is_valid.valid_single_argument.  `none` models an
uncaught exception (`AttributeError` from `.group(1)`, `KeyError` from a dict
lookup, `ValueError` from `int`); the branch structure mirrors the Python
statement order, in particular the argument is extracted before the keyword
membership test. -/
def valid_single_argument (v : List Char) : Option Bool :=
  if matchSingleArgPattern v then
    (extractGroup v).bind (fun g =>
      if pyIn (beforeParen v) one_optional_arg then
        (dictGet aliases (beforeParen v)).bind (fun canon =>
          (dictGet str_ranges canon).bind (fun r =>
            if g.filter (fun c => !decide (c = ' ')) = "MAX".data then some true
            else (pyInt (g.filter (fun c => !decide (c = ' ')))).bind (fun n =>
              some (decide (r.1 ≤ n) && decide (n ≤ r.2)))))
      else some false)
  else some false

/-- RedshiftDatatype._is_valid.valid_double_argument.  Falling off the end of
the Python function yields `None`, which is falsy in `any`, modelled as
`some false`. -/
def valid_double_argument (v : List Char) : Option Bool :=
  if matchMultipleArgPattern v then
    if pyIn (beforeParen v) two_optional_args then
      (extractGroup v).bind (fun g =>
        (mapIntAll (splitComma (g.filter (fun c => !decide (c = ' '))))).bind (fun args2 =>
          (args2[0]?).bind (fun a0 =>
            (args2[1]?).bind (fun a1 =>
              (dictGet num_ranges "PRECISION".data).bind (fun pr =>
                (dictGet num_ranges "SCALE".data).bind (fun sc =>
                  some (decide (pr.1 ≤ a0) && decide (a0 ≤ pr.2) &&
                        (decide (sc.1 ≤ a1) && decide (a1 ≤ sc.2)) &&
                        decide (a1 < a0))))))))
    else some false
  else some false

/-- RedshiftDatatype._is_valid.  A non-string returns `False` at once;
otherwise Python builds the list
`[valid_without_argument(), valid_single_argument(), valid_double_argument()]`
eagerly (so an exception in any element propagates) and applies `any`. -/
def redshift_is_valid (v : Value) : Option Bool :=
  match v with
  | Value.str s =>
    (valid_single_argument s).bind (fun b =>
      (valid_double_argument s).bind (fun c =>
        some (valid_without_argument s || b || c)))
  | _ => some false

/-- make_data (`yamale.py`), with the external reader's parse result passed
in as the list of parsed documents (`raw_data` in the source): zero parsed
documents yield the single pair (empty mapping, path); otherwise one
(document, path) pair per document, in order. -/
def make_data (path : List Char) (docs : List Value) : List (Value × List Char) :=
  if docs.length = 0 then [(Value.dict [], path)] else docs.map (fun d => (d, path))

/-- Modelled from the spec: `Schema.validate` (defined in `schema.py`, which
is outside the provided sources) is the matching engine producing the
ordered error list of one document; per the spec it is a pure function of
the data tree, the source label and the strict flag, with no shared mutable
state between calls.  The driver below takes it as an explicit parameter;
the run's observables are the per-item validation outcomes, in order, and
the returned `data`. -/
def validate (engine : Value → List Char → Bool → List (List Char))
    (data : List (Value × List Char)) (strict : Bool) :
    List (List (List Char)) × List (Value × List Char) :=
  (data.map (fun dp => engine dp.1 dp.2 strict), data)

/-- The validator classes defined in the module, each a subclass of the
(external) base class Validator; Mac is a subclass of Regex. -/
inductive VClass where
  | String | Number | Integer | Boolean | Enum | Day | Timestamp | Map
  | RedshiftDatatype | List | Include | Any | Null | Regex | Ip | Mac
  deriving DecidableEq

/-- The `tag` class attribute of each validator class. -/
def tagOf : VClass → List Char
  | .String => "str".data
  | .Number => "num".data
  | .Integer => "int".data
  | .Boolean => "bool".data
  | .Enum => "enum".data
  | .Day => "day".data
  | .Timestamp => "timestamp".data
  | .Map => "map".data
  | .RedshiftDatatype => "redshift_datatype".data
  | .List => "list".data
  | .Include => "include".data
  | .Any => "any".data
  | .Null => "null".data
  | .Regex => "regex".data
  | .Ip => "ip".data
  | .Mac => "mac".data

/-- The Python class name (`__name__`) of each validator class. -/
def clsNameOf : VClass → List Char
  | .String => "String".data
  | .Number => "Number".data
  | .Integer => "Integer".data
  | .Boolean => "Boolean".data
  | .Enum => "Enum".data
  | .Day => "Day".data
  | .Timestamp => "Timestamp".data
  | .Map => "Map".data
  | .RedshiftDatatype => "RedshiftDatatype".data
  | .List => "List".data
  | .Include => "Include".data
  | .Any => "Any".data
  | .Null => "Null".data
  | .Regex => "Regex".data
  | .Ip => "Ip".data
  | .Mac => "Mac".data

/-- Modelled from the spec: `util.get_subclasses(Validator)` (the util
module is outside the provided sources; the spec calls this a process-wide
table built by scanning all loaded subclasses).  For this module the loaded
subclasses are the sixteen classes above, including Mac through Regex.  The
enumeration order is immaterial here because no two keys collide. -/
def get_subclasses : List VClass :=
  [.String, .Number, .Integer, .Boolean, .Enum, .Day, .Timestamp, .Map,
   .RedshiftDatatype, .List, .Include, .Any, .Null, .Regex, .Ip, .Mac]

/-- DefaultValidators, built by the module-level loop
`DefaultValidators[v.tag] = v; DefaultValidators[v.__name__] = v`, modelled
as the sequence of dict assignments. -/
def DefaultValidators : List (List Char × VClass) :=
  get_subclasses.foldl (fun m v => (m ++ [(tagOf v, v)]) ++ [(clsNameOf v, v)]) []

/-- Python dict lookup for a dict built as a sequence of assignments: the
last assignment to a key wins. -/
def dictGetLast (m : List (List Char × VClass)) (k : List Char) : Option VClass :=
  ((m.filter (fun kv => decide (kv.1 = k))).getLast?).map (fun kv => kv.2)

/-- Value of re.IGNORECASE. -/
def re_I : Nat := 2

/-- Value of re.MULTILINE. -/
def re_M : Nat := 8

/-- Value of re.DOTALL. -/
def re_S : Nat := 16

/-- Flag computation in Regex.__init__: starting from 0, for each entry of
_regex_flags (a dict iterated in insertion order: ignore_case, multiline,
dotall) the entry's value is OR'd in exactly when that keyword argument was
passed as true. -/
def regexFlags (ignore_case multiline dotall : Bool) : Nat :=
  Nat.lor (Nat.lor (Nat.lor 0 (if ignore_case then re_I else 0))
    (if multiline then re_M else 0)) (if dotall then re_S else 0)

/-- The string constructor arguments in declaration order:
`[arg for arg in args if util.isstr(arg)]`. -/
def strArgs (args : List Value) : List (List Char) :=
  args.filterMap (fun a => match a with | Value.str s => some s | _ => none)

/-- Regex.__init__: `self.regexes = [re.compile(arg, flags) for arg in args
if util.isstr(arg)]`.  A compiled pattern is modelled by its source string
and flag word; the match semantics of the external `re` module enters
through the `rmatch` oracle of `Regex_is_valid`. -/
def Regex_regexes (args : List Value) (ic ml da : Bool) : List (List Char × Nat) :=
  (strArgs args).map (fun s => (s, regexFlags ic ml da))

/-- The character data of a string value (only read under an `isstr`
guard). -/
def strOf : Value → List Char
  | Value.str s => s
  | _ => []

/-- Regex._is_valid: `util.isstr(value) and any(r.match(value) for r in
self.regexes)`, where `rmatch pattern flags s` stands for the truthiness of
`re.compile(pattern, flags).match(s)`. -/
def Regex_is_valid (rmatch : List Char → Nat → List Char → Bool)
    (regexes : List (List Char × Nat)) (v : Value) : Bool :=
  isstr v && regexes.any (fun r => rmatch r.1 r.2 (strOf v))

/-- A concrete match oracle for the witness: a pattern matches iff it is a
prefix of the subject, as an anchored `re.match` would for a literal
pattern. -/
def prefixMatch (p : List Char) (_ : Nat) (s : List Char) : Bool :=
  p.isPrefixOf s

/-- Membership characterization of the Python `in` model. -/
theorem pyIn_eq_true_iff (x : List Char) (l : List (List Char)) :
    pyIn x l = true ↔ x ∈ l := by
  induction l with
  | nil => simp [pyIn]
  | cons y ys ih =>
    simp only [pyIn, Bool.or_eq_true, decide_eq_true_eq, ih, List.mem_cons]
    exact or_congr_left eq_comm

/-- A greedy character-class run consumes a fully satisfying prefix. -/
theorem takeWhile_all_append (p : Char → Bool) (l r : List Char)
    (h : ∀ c ∈ l, p c = true) :
    (l ++ r).takeWhile p = l ++ r.takeWhile p := by
  induction l with
  | nil => simp
  | cons a t ih =>
    have ha : p a = true := h a (by simp)
    simp [List.takeWhile_cons, ha, ih (fun c hc => h c (by simp [hc]))]

/-- Companion to `takeWhile_all_append` for the remainder. -/
theorem dropWhile_all_append (p : Char → Bool) (l r : List Char)
    (h : ∀ c ∈ l, p c = true) :
    (l ++ r).dropWhile p = r.dropWhile p := by
  induction l with
  | nil => simp
  | cons a t ih =>
    have ha : p a = true := h a (by simp)
    simp [List.dropWhile_cons, ha, ih (fun c hc => h c (by simp [hc]))]

/-- A greedy run over a satisfying prefix stops exactly at the first
non-satisfying character. -/
theorem takeWhile_stop (p : Char → Bool) (l : List Char) (c : Char) (r : List Char)
    (h : ∀ x ∈ l, p x = true) (hc : p c = false) :
    (l ++ c :: r).takeWhile p = l := by
  rw [takeWhile_all_append p l _ h, List.takeWhile_cons, hc]
  simp

/-- Companion to `takeWhile_stop` for the remainder. -/
theorem dropWhile_stop (p : Char → Bool) (l : List Char) (c : Char) (r : List Char)
    (h : ∀ x ∈ l, p x = true) (hc : p c = false) :
    (l ++ c :: r).dropWhile p = c :: r := by
  rw [dropWhile_all_append p l _ h, List.dropWhile_cons, hc]
  simp

/-- Character facts used when the argument characters are digits. -/
theorem digit_ne (c : Char) (h : isDigitChar c = true) :
    c ≠ ',' ∧ c ≠ ')' ∧ c ≠ '\n' ∧ c ≠ ' ' ∧ c ≠ 'M' := by
  refine ⟨?_, ?_, ?_, ?_, ?_⟩ <;> rintro rfl <;> exact absurd h (by decide)

/-- The keyword class `[a-zA-Z\s]` contains no parenthesis. -/
theorem alphaSpace_ne_paren (c : Char) (h : isAlphaSpace c = true) : c ≠ '(' := by
  rintro rfl; exact absurd h (by decide)

/-- Lazy group extraction after the first `(` stops at the first `)`. -/
theorem grabUntilClose_eq (content rest : List Char)
    (h1 : ')' ∉ content) (h2 : '\n' ∉ content) :
    grabUntilClose (content ++ ')' :: rest) = some content := by
  induction content with
  | nil => simp [grabUntilClose]
  | cons a t ih =>
    have ha1 : ¬(a = ')') := by rintro rfl; exact h1 (List.mem_cons_self _ _)
    have ha2 : ¬(a = '\n') := by rintro rfl; exact h2 (List.mem_cons_self _ _)
    simp [grabUntilClose, ha1, ha2,
      ih (fun hh => h1 (List.mem_cons_of_mem _ hh)) (fun hh => h2 (List.mem_cons_of_mem _ hh))]

/-- Value of `re.search(r'\((.*?)\)', value).group(1)` on a string whose
first parenthesised group is closed without an intervening newline. -/
theorem extractGroup_eq (pre content rest : List Char)
    (hpre : '(' ∉ pre) (h1 : ')' ∉ content) (h2 : '\n' ∉ content) :
    extractGroup (pre ++ '(' :: (content ++ ')' :: rest)) = some content := by
  induction pre with
  | nil => simp [extractGroup, grabUntilClose_eq content rest h1 h2]
  | cons a t ih =>
    have ha : ¬(a = '(') := by rintro rfl; exact hpre (List.mem_cons_self _ _)
    simp [extractGroup, ha, ih (fun hh => hpre (List.mem_cons_of_mem _ hh))]

/-- Python `split` never yields an empty list of parts. -/
theorem splitComma_ne_nil (l : List Char) : splitComma l ≠ [] := by
  cases l with
  | nil => simp [splitComma]
  | cons c rest =>
    simp only [splitComma]
    split
    · exact List.cons_ne_nil _ _
    · split
      · exact List.cons_ne_nil _ _
      · exact List.cons_ne_nil _ _

/-- Python `split(",")` on a comma-free string. -/
theorem splitComma_no_comma (l : List Char) (h : ',' ∉ l) : splitComma l = [l] := by
  induction l with
  | nil => rfl
  | cons c rest ih =>
    have hc : ¬(c = ',') := by rintro rfl; exact h (List.mem_cons_self _ _)
    simp [splitComma, hc, ih (fun hh => h (List.mem_cons_of_mem _ hh))]

/-- Python `split(",")` around the first comma. -/
theorem splitComma_append (l r : List Char) (h : ',' ∉ l) :
    splitComma (l ++ ',' :: r) = l :: splitComma r := by
  induction l with
  | nil => simp [splitComma]
  | cons c rest ih =>
    have hc : ¬(c = ',') := by rintro rfl; exact h (List.mem_cons_self _ _)
    simp [splitComma, hc, ih (fun hh => h (List.mem_cons_of_mem _ hh))]

/-- A string containing a parenthesis is not in the keyword table: no table
entry contains one, and `upper` maps `(` to itself. -/
theorem valid_without_argument_eq_false (v : List Char) (h : '(' ∈ v) :
    valid_without_argument v = false := by
  have hmem : '(' ∈ v.map Char.toUpper := List.mem_map.mpr ⟨'(', h, by decide⟩
  have hnot : ∀ y ∈ all_args, '(' ∉ y := by decide
  rw [valid_without_argument, Bool.eq_false_iff]
  intro htrue
  exact hnot _ ((pyIn_eq_true_iff _ _).mp htrue) hmem

/-- Head disagreement refutes an equation with a four-character prefix. -/
theorem takeFour_ne_MAX {a : Char} (h : a ≠ 'M') (l : List Char) :
    decide ((a :: l).take 4 = ['M', 'A', 'X', ')']) = false := by
  apply decide_eq_false
  intro hEq
  rw [show (4 : Nat) = 3 + 1 from rfl, List.take_succ_cons] at hEq
  exact h (List.cons.injEq _ _ _ _ ▸ hEq).1

/-- Head disagreement for `head?`-based tests. -/
theorem decide_head_cons_eq_false {c c' : Char} (h : c ≠ c') (l : List Char) :
    decide ((c :: l).head? = some c') = false := by
  simp [h]

/-- C2: RedshiftDatatype._is_valid accepts a two-argument string
`DECIMAL(p,s)` (or `NUMERIC(p,s)`, with `p` and `s` decimal digit strings)
if and only if 1 ≤ p ≤ 38, 0 ≤ s ≤ 37 and p is strictly greater than s
(the scale bound 0 ≤ s holds trivially for a digit string). -/
theorem redshift_two_arg_iff (kw ps ss : List Char)
    (hkw : kw = "DECIMAL".data ∨ kw = "NUMERIC".data)
    (hps_ne : ps ≠ []) (hps : ∀ c ∈ ps, isDigitChar c = true)
    (hss_ne : ss ≠ []) (hss : ∀ c ∈ ss, isDigitChar c = true) :
    redshift_is_valid (Value.str (kw ++ '(' :: (ps ++ ',' :: (ss ++ [')'])))) = some true ↔
      (1 ≤ digitsVal ps ∧ digitsVal ps ≤ 38 ∧ digitsVal ss ≤ 37 ∧
        digitsVal ss < digitsVal ps) := by
  have hkw_ne : kw ≠ [] := by rcases hkw with rfl | rfl <;> decide
  have hkw_as : ∀ c ∈ kw, isAlphaSpace c = true := by rcases hkw with rfl | rfl <;> decide
  have hkw2 : pyIn kw two_optional_args = true := by rcases hkw with rfl | rfl <;> decide
  obtain ⟨p0, ps', rfl⟩ := List.exists_cons_of_ne_nil hps_ne
  obtain ⟨s0, ss', rfl⟩ := List.exists_cons_of_ne_nil hss_ne
  have hp0 : isDigitChar p0 = true := hps p0 (by simp)
  have hs0 : isDigitChar s0 = true := hss s0 (by simp)
  have hT_take : ((p0 :: ps') ++ ',' :: ((s0 :: ss') ++ [')'])).takeWhile isDigitChar
      = p0 :: ps' := takeWhile_stop _ _ _ _ hps (by decide)
  have hT_drop : ((p0 :: ps') ++ ',' :: ((s0 :: ss') ++ [')'])).dropWhile isDigitChar
      = ',' :: ((s0 :: ss') ++ [')']) := dropWhile_stop _ _ _ _ hps (by decide)
  have hS_take : ((s0 :: ss') ++ [')']).takeWhile isDigitChar = s0 :: ss' :=
    takeWhile_stop _ _ _ _ hss (by decide)
  have hS_drop : ((s0 :: ss') ++ [')']).dropWhile isDigitChar = [')'] :=
    dropWhile_stop _ _ _ _ hss (by decide)
  have hv_take : (kw ++ '(' :: ((p0 :: ps') ++ ',' :: ((s0 :: ss') ++ [')']))).takeWhile isAlphaSpace
      = kw := takeWhile_stop _ _ _ _ hkw_as (by decide)
  have hv_drop : (kw ++ '(' :: ((p0 :: ps') ++ ',' :: ((s0 :: ss') ++ [')']))).dropWhile isAlphaSpace
      = '(' :: ((p0 :: ps') ++ ',' :: ((s0 :: ss') ++ [')'])) :=
    dropWhile_stop _ _ _ _ hkw_as (by decide)
  have hdos : dropOneSpace ((s0 :: ss') ++ [')']) = (s0 :: ss') ++ [')'] := by
    simp [dropOneSpace, (digit_ne s0 hs0).2.2.2.1]
  have e1 : (decide ((some ',' : Option Char) = some ',')) = true := by decide
  have e2 : (decide ((([')'] : List Char).head?) = some ')')) = true := by decide
  have e3 : (decide ((some '(' : Option Char) = some '(')) = true := by decide
  have hpair : matchPairClose ((p0 :: ps') ++ ',' :: ((s0 :: ss') ++ [')'])) = true := by
    simp only [matchPairClose, hT_take, hT_drop, List.head?_cons, List.tail_cons, hdos,
               matchDigitsClose, hS_take, hS_drop, List.isEmpty_cons, Bool.not_false,
               e1, e2, Bool.true_and, Bool.and_true, Bool.true_or]
    simp
  have hkwE : kw.isEmpty = false := by
    cases kw with
    | nil => exact absurd rfl hkw_ne
    | cons a t => rfl
  have hmulti : matchMultipleArgPattern (kw ++ '(' :: ((p0 :: ps') ++ ',' :: ((s0 :: ss') ++ [')'])))
      = true := by
    simp only [matchMultipleArgPattern, hv_take, hv_drop, List.head?_cons, List.tail_cons,
               hkwE, Bool.not_false, e3, hpair, Bool.true_and, Bool.and_true]
    simp
  have hsingle : matchSingleArgPattern (kw ++ '(' :: ((p0 :: ps') ++ ',' :: ((s0 :: ss') ++ [')'])))
      = false := by
    have h1 : matchDigitsClose ((p0 :: ps') ++ ',' :: ((s0 :: ss') ++ [')'])) = false := by
      simp only [matchDigitsClose, hT_drop,
                 decide_head_cons_eq_false (show ',' ≠ ')' from by decide), Bool.and_false]
    have h2 : decide (((p0 :: ps') ++ ',' :: ((s0 :: ss') ++ [')'])).take 4
        = ['M', 'A', 'X', ')']) = false := by
      have h3 := takeFour_ne_MAX (digit_ne p0 hp0).2.2.2.2 (ps' ++ ',' :: ((s0 :: ss') ++ [')']))
      simpa using h3
    simp only [matchSingleArgPattern, hv_drop, List.tail_cons, matchNumOrMaxClose, h1, h2,
               Bool.or_self, Bool.and_false]
  have hvs : valid_single_argument (kw ++ '(' :: ((p0 :: ps') ++ ',' :: ((s0 :: ss') ++ [')'])))
      = some false := by
    simp only [valid_single_argument, hsingle, Bool.false_eq_true, if_false]
  have hpre : '(' ∉ kw := fun hh => alphaSpace_ne_paren '(' (hkw_as '(' hh) rfl
  have hbp : beforeParen (kw ++ '(' :: ((p0 :: ps') ++ ',' :: ((s0 :: ss') ++ [')'])))
      = kw := by
    have h' : ∀ c ∈ kw, (fun c => !decide (c = '(')) c = true := by
      intro c hc
      simp [alphaSpace_ne_paren c (hkw_as c hc)]
    exact takeWhile_stop _ _ _ _ h' (by decide)
  have hc1 : ')' ∉ (p0 :: ps') ++ ',' :: (s0 :: ss') := by
    intro hmem
    rcases List.mem_append.mp hmem with hm | hm
    · exact absurd (hps _ hm) (by decide)
    · rcases List.mem_cons.mp hm with he | hm2
      · exact absurd he (by decide)
      · exact absurd (hss _ hm2) (by decide)
  have hc2 : '\n' ∉ (p0 :: ps') ++ ',' :: (s0 :: ss') := by
    intro hmem
    rcases List.mem_append.mp hmem with hm | hm
    · exact absurd (hps _ hm) (by decide)
    · rcases List.mem_cons.mp hm with he | hm2
      · exact absurd he (by decide)
      · exact absurd (hss _ hm2) (by decide)
  have hex : extractGroup (kw ++ '(' :: ((p0 :: ps') ++ ',' :: ((s0 :: ss') ++ [')'])))
      = some ((p0 :: ps') ++ ',' :: (s0 :: ss')) := by
    have he : (p0 :: ps') ++ ',' :: ((s0 :: ss') ++ [')'])
        = ((p0 :: ps') ++ ',' :: (s0 :: ss')) ++ ')' :: [] := by simp
    rw [he]
    exact extractGroup_eq kw _ [] hpre hc1 hc2
  have hfil : ((p0 :: ps') ++ ',' :: (s0 :: ss')).filter (fun c => !decide (c = ' '))
      = (p0 :: ps') ++ ',' :: (s0 :: ss') := by
    apply List.filter_eq_self.mpr
    intro a ha
    rcases List.mem_append.mp ha with hm | hm
    · simp [(digit_ne _ (hps _ hm)).2.2.2.1]
    · rcases List.mem_cons.mp hm with he | hm2
      · subst he; decide
      · simp [(digit_ne _ (hss _ hm2)).2.2.2.1]
  have hsplit : splitComma ((p0 :: ps') ++ ',' :: (s0 :: ss')) = [p0 :: ps', s0 :: ss'] := by
    rw [splitComma_append _ _ (fun hh => absurd (hps _ hh) (by decide)),
        splitComma_no_comma _ (fun hh => absurd (hss _ hh) (by decide))]
  have hmap : mapIntAll [p0 :: ps', s0 :: ss']
      = some [digitsVal (p0 :: ps'), digitsVal (s0 :: ss')] := by
    have h1 : pyInt (p0 :: ps') = some (digitsVal (p0 :: ps')) := by
      simp [pyInt, List.all_eq_true.mpr hps]
    have h2 : pyInt (s0 :: ss') = some (digitsVal (s0 :: ss')) := by
      simp [pyInt, List.all_eq_true.mpr hss]
    simp [mapIntAll, h1, h2]
  have hP : dictGet num_ranges "PRECISION".data = some ((1 : Nat), (38 : Nat)) := by decide
  have hS2 : dictGet num_ranges "SCALE".data = some ((0 : Nat), (37 : Nat)) := by decide
  have g0 : ([digitsVal (p0 :: ps'), digitsVal (s0 :: ss')] : List Nat)[0]?
      = some (digitsVal (p0 :: ps')) := rfl
  have g1 : ([digitsVal (p0 :: ps'), digitsVal (s0 :: ss')] : List Nat)[1]?
      = some (digitsVal (s0 :: ss')) := rfl
  have hvd : valid_double_argument (kw ++ '(' :: ((p0 :: ps') ++ ',' :: ((s0 :: ss') ++ [')'])))
      = some (decide (1 ≤ digitsVal (p0 :: ps')) && decide (digitsVal (p0 :: ps') ≤ 38) &&
              (decide (0 ≤ digitsVal (s0 :: ss')) && decide (digitsVal (s0 :: ss') ≤ 37)) &&
              decide (digitsVal (s0 :: ss') < digitsVal (p0 :: ps'))) := by
    simp only [valid_double_argument]
    rw [if_pos hmulti, hbp, if_pos hkw2, hex]
    simp only [Option.some_bind]
    rw [hfil, hsplit, hmap]
    simp only [Option.some_bind, g0, g1, hP, hS2]
  have hvw : valid_without_argument (kw ++ '(' :: ((p0 :: ps') ++ ',' :: ((s0 :: ss') ++ [')'])))
      = false := valid_without_argument_eq_false _ (by simp)
  simp only [redshift_is_valid, hvs, hvd, Option.some_bind, hvw, Bool.false_or]
  simp [and_assoc]

/-- Witness for `redshift_two_arg_iff`: `DECIMAL(10,5)` is accepted and
`DECIMAL(10,12)` is not. -/
theorem redshift_two_arg_instance :
    redshift_is_valid (Value.str ("DECIMAL".data ++ '(' :: ("10".data ++ ',' :: ("5".data ++ [')']))))
      = some true ∧
    redshift_is_valid (Value.str ("DECIMAL".data ++ '(' :: ("10".data ++ ',' :: ("12".data ++ [')']))))
      ≠ some true := by
  constructor
  · exact (redshift_two_arg_iff "DECIMAL".data "10".data "5".data (Or.inl rfl)
      (by decide) (by decide) (by decide) (by decide)).mpr (by decide)
  · intro h
    have h2 := (redshift_two_arg_iff "DECIMAL".data "10".data "12".data (Or.inl rfl)
      (by decide) (by decide) (by decide) (by decide)).mp h
    exact absurd h2 (by decide)

/-- C3: RedshiftDatatype._is_valid accepts a single-argument string `K(n)`
(K one of the character-type keywords, `n` a decimal digit string) if and
only if n lies in the range of K's canonical alias
(`dictGet aliases` then `dictGet str_ranges`: CHAR-family 1..4096,
VARCHAR-family 1..65535), and it accepts the literal `K(MAX)`. -/
theorem redshift_one_arg_iff (kw ns : List Char) (lo hi : Nat)
    (hkw : pyIn kw one_optional_arg = true)
    (hrange : (dictGet aliases kw).bind (fun c => dictGet str_ranges c) = some (lo, hi))
    (hns_ne : ns ≠ []) (hns : ∀ c ∈ ns, isDigitChar c = true) :
    (redshift_is_valid (Value.str (kw ++ '(' :: (ns ++ [')']))) = some true ↔
      (lo ≤ digitsVal ns ∧ digitsVal ns ≤ hi)) ∧
    redshift_is_valid (Value.str (kw ++ '(' :: ('M' :: 'A' :: 'X' :: ')' :: []))) = some true := by
  have hkm : kw ∈ one_optional_arg := (pyIn_eq_true_iff _ _).mp hkw
  have hkw_facts : kw ≠ [] ∧ (∀ c ∈ kw, isAlphaSpace c = true) ∧
      pyIn kw two_optional_args = false := by
    fin_cases hkm <;> exact ⟨by decide, by decide, by decide⟩
  obtain ⟨hkw_ne, hkw_as, hkw2f⟩ := hkw_facts
  obtain ⟨canon, hcan, hsr⟩ : ∃ canon, dictGet aliases kw = some canon ∧
      dictGet str_ranges canon = some (lo, hi) := by
    cases hc : dictGet aliases kw with
    | none => rw [hc] at hrange; exact absurd hrange (by simp)
    | some c =>
      rw [hc] at hrange
      simp only [Option.some_bind] at hrange
      exact ⟨c, rfl, hrange⟩
  obtain ⟨n0, ns', rfl⟩ := List.exists_cons_of_ne_nil hns_ne
  have hn0 : isDigitChar n0 = true := hns n0 (by simp)
  have hkwE : kw.isEmpty = false := by
    cases kw with
    | nil => exact absurd rfl hkw_ne
    | cons a t => rfl
  have hpre : '(' ∉ kw := fun hh => alphaSpace_ne_paren '(' (hkw_as '(' hh) rfl
  have e2 : (decide ((([')'] : List Char).head?) = some ')')) = true := by decide
  have e3 : (decide ((some '(' : Option Char) = some '(')) = true := by decide
  have hS_take : ((n0 :: ns') ++ [')']).takeWhile isDigitChar = n0 :: ns' :=
    takeWhile_stop _ _ _ _ hns (by decide)
  have hS_drop : ((n0 :: ns') ++ [')']).dropWhile isDigitChar = [')'] :=
    dropWhile_stop _ _ _ _ hns (by decide)
  have hv_take : (kw ++ '(' :: ((n0 :: ns') ++ [')'])).takeWhile isAlphaSpace = kw :=
    takeWhile_stop _ _ _ _ hkw_as (by decide)
  have hv_drop : (kw ++ '(' :: ((n0 :: ns') ++ [')'])).dropWhile isAlphaSpace
      = '(' :: ((n0 :: ns') ++ [')']) := dropWhile_stop _ _ _ _ hkw_as (by decide)
  have hbp : beforeParen (kw ++ '(' :: ((n0 :: ns') ++ [')'])) = kw := by
    have h' : ∀ c ∈ kw, (fun c => !decide (c = '(')) c = true := by
      intro c hc
      simp [alphaSpace_ne_paren c (hkw_as c hc)]
    exact takeWhile_stop _ _ _ _ h' (by decide)
  have hnm : matchNumOrMaxClose ((n0 :: ns') ++ [')']) = true := by
    simp only [matchNumOrMaxClose, matchDigitsClose, hS_take, hS_drop, List.isEmpty_cons,
               Bool.not_false, e2, Bool.true_and, Bool.and_true, Bool.true_or]
    try simp
  have hsingleT : matchSingleArgPattern (kw ++ '(' :: ((n0 :: ns') ++ [')'])) = true := by
    simp only [matchSingleArgPattern, hv_take, hv_drop, List.head?_cons, List.tail_cons,
               hkwE, Bool.not_false, e3, hnm, Bool.true_and, Bool.and_true]
    try simp
  have hpairF : matchPairClose ((n0 :: ns') ++ [')']) = false := by
    have hB := decide_head_cons_eq_false (show ')' ≠ ',' from by decide) ([] : List Char)
    have h4 : decide (((n0 :: ns') ++ [')']).take 4 = ['M', 'A', 'X', ')']) = false := by
      have h5 := takeFour_ne_MAX (digit_ne n0 hn0).2.2.2.2 (ns' ++ [')'])
      simpa using h5
    simp only [matchPairClose, hS_take, hS_drop, hB, Bool.and_false, Bool.false_and,
               h4, Bool.or_self]
  have hmultiF : matchMultipleArgPattern (kw ++ '(' :: ((n0 :: ns') ++ [')'])) = false := by
    simp only [matchMultipleArgPattern, hv_drop, List.tail_cons, hpairF, Bool.and_false]
  have hvdF : valid_double_argument (kw ++ '(' :: ((n0 :: ns') ++ [')'])) = some false := by
    simp only [valid_double_argument, hmultiF, Bool.false_eq_true, if_false]
  have hex : extractGroup (kw ++ '(' :: ((n0 :: ns') ++ [')'])) = some (n0 :: ns') :=
    extractGroup_eq kw (n0 :: ns') [] hpre
      (fun hh => absurd (hns _ hh) (by decide))
      (fun hh => absurd (hns _ hh) (by decide))
  have hfil : (n0 :: ns').filter (fun c => !decide (c = ' ')) = n0 :: ns' := by
    apply List.filter_eq_self.mpr
    intro a ha
    simp [(digit_ne _ (hns _ ha)).2.2.2.1]
  have hMAXne : ¬((n0 :: ns' : List Char) = "MAX".data) := by
    rw [show "MAX".data = ['M', 'A', 'X'] from rfl]
    intro hEq
    exact absurd ((List.cons.injEq _ _ _ _).mp hEq).1 (digit_ne n0 hn0).2.2.2.2
  have hpyint : pyInt (n0 :: ns') = some (digitsVal (n0 :: ns')) := by
    simp [pyInt, List.all_eq_true.mpr hns]
  have hvsg : valid_single_argument (kw ++ '(' :: ((n0 :: ns') ++ [')'])) =
      some (decide (lo ≤ digitsVal (n0 :: ns')) && decide (digitsVal (n0 :: ns') ≤ hi)) := by
    simp only [valid_single_argument]
    rw [if_pos hsingleT, hex]
    simp only [Option.some_bind]
    rw [hfil, hbp, if_pos hkw, hcan]
    simp only [Option.some_bind]
    rw [hsr]
    simp only [Option.some_bind]
    rw [if_neg hMAXne, hpyint]
    simp only [Option.some_bind]
  have hvw : valid_without_argument (kw ++ '(' :: ((n0 :: ns') ++ [')'])) = false :=
    valid_without_argument_eq_false _ (by simp)
  constructor
  · simp only [redshift_is_valid, hvsg, hvdF, Option.some_bind, hvw, Bool.false_or,
               Bool.or_false]
    try simp
  · have hv2_take : (kw ++ '(' :: ('M' :: 'A' :: 'X' :: ')' :: [])).takeWhile isAlphaSpace
        = kw := takeWhile_stop _ _ _ _ hkw_as (by decide)
    have hv2_drop : (kw ++ '(' :: ('M' :: 'A' :: 'X' :: ')' :: [])).dropWhile isAlphaSpace
        = '(' :: ('M' :: 'A' :: 'X' :: ')' :: []) := dropWhile_stop _ _ _ _ hkw_as (by decide)
    have hbp2 : beforeParen (kw ++ '(' :: ('M' :: 'A' :: 'X' :: ')' :: [])) = kw := by
      have h' : ∀ c ∈ kw, (fun c => !decide (c = '(')) c = true := by
        intro c hc
        simp [alphaSpace_ne_paren c (hkw_as c hc)]
      exact takeWhile_stop _ _ _ _ h' (by decide)
    have hm1 : matchNumOrMaxClose ('M' :: 'A' :: 'X' :: ')' :: []) = true := by decide
    have hm2 : matchPairClose ('M' :: 'A' :: 'X' :: ')' :: []) = true := by decide
    have hsingleT2 : matchSingleArgPattern (kw ++ '(' :: ('M' :: 'A' :: 'X' :: ')' :: []))
        = true := by
      simp only [matchSingleArgPattern, hv2_take, hv2_drop, List.head?_cons, List.tail_cons,
                 hkwE, Bool.not_false, e3, hm1, Bool.true_and, Bool.and_true]
      try simp
    have hmultiT2 : matchMultipleArgPattern (kw ++ '(' :: ('M' :: 'A' :: 'X' :: ')' :: []))
        = true := by
      simp only [matchMultipleArgPattern, hv2_take, hv2_drop, List.head?_cons, List.tail_cons,
                 hkwE, Bool.not_false, e3, hm2, Bool.true_and, Bool.and_true]
      try simp
    have hvd2 : valid_double_argument (kw ++ '(' :: ('M' :: 'A' :: 'X' :: ')' :: []))
        = some false := by
      simp only [valid_double_argument]
      rw [if_pos hmultiT2, hbp2, if_neg (by simp [hkw2f])]
    have hex2 : extractGroup (kw ++ '(' :: ('M' :: 'A' :: 'X' :: ')' :: []))
        = some ['M', 'A', 'X'] :=
      extractGroup_eq kw ['M', 'A', 'X'] [] hpre (by decide) (by decide)
    have hvs2 : valid_single_argument (kw ++ '(' :: ('M' :: 'A' :: 'X' :: ')' :: []))
        = some true := by
      simp only [valid_single_argument]
      rw [if_pos hsingleT2, hex2]
      simp only [Option.some_bind]
      rw [show (['M', 'A', 'X'] : List Char).filter (fun c => !decide (c = ' '))
            = ['M', 'A', 'X'] from by decide]
      rw [hbp2, if_pos hkw, hcan]
      simp only [Option.some_bind]
      rw [hsr]
      simp only [Option.some_bind]
      simp
    have hvw2 : valid_without_argument (kw ++ '(' :: ('M' :: 'A' :: 'X' :: ')' :: []))
        = false := valid_without_argument_eq_false _ (by simp)
    simp only [redshift_is_valid, hvs2, hvd2, Option.some_bind, hvw2, Bool.false_or,
               Bool.or_false, Bool.true_or]

/-- Witness for `redshift_one_arg_iff`: `VARCHAR(256)` and `VARCHAR(MAX)`
are accepted, `VARCHAR(100000)` is not. -/
theorem redshift_one_arg_instance :
    redshift_is_valid (Value.str ("VARCHAR".data ++ '(' :: ("256".data ++ [')'])))
      = some true ∧
    redshift_is_valid (Value.str ("VARCHAR".data ++ '(' :: ('M' :: 'A' :: 'X' :: ')' :: [])))
      = some true ∧
    redshift_is_valid (Value.str ("VARCHAR".data ++ '(' :: ("100000".data ++ [')'])))
      ≠ some true := by
  have h1 := redshift_one_arg_iff "VARCHAR".data "256".data 1 65535
    (by decide) (by decide) (by decide) (by decide)
  have h2 := redshift_one_arg_iff "VARCHAR".data "100000".data 1 65535
    (by decide) (by decide) (by decide) (by decide)
  refine ⟨h1.1.mpr (by decide), h1.2, ?_⟩
  intro h
  exact absurd (h2.1.mp h) (by decide)

/-- C1, behaviour at the failing input: the string DECIMAL(MAX) matches the
two-argument structural pattern through its MAX alternative, the keyword is
in two_optional_args, and Python then evaluates int('MAX'), raising
ValueError out of _is_valid; the model returns `none` (exception) rather
than `some false`. -/
theorem redshift_raises_on_decimal_max :
    redshift_is_valid (Value.str "DECIMAL(MAX)".data) = none := by decide

/-- C5: the `any` and `include` validators' own type predicates accept every
data value. -/
theorem any_include_always_true :
    ∀ v : Value, Any_is_valid v = true ∧ Include_is_valid v = true :=
  fun _ => ⟨rfl, rfl⟩

/-- C9: every boolean passes the `int` validator's type predicate (bool is a
subclass of int in Python), and the `num` validator accepts booleans,
integers and floats. -/
theorem int_num_accept_bool :
    (∀ b : Bool, Integer_is_valid (Value.bool b) = true) ∧
    (∀ b : Bool, Number_is_valid (Value.bool b) = true) ∧
    (∀ n : Int, Number_is_valid (Value.int n) = true) ∧
    (∀ m e : Int, Number_is_valid (Value.float m e) = true) :=
  ⟨fun _ => rfl, fun _ => rfl, fun _ => rfl, fun _ _ => rfl⟩

/-- C10: every string fails the `list` validator's type predicate: strings
are Sequences, but `List._is_valid` excludes them explicitly. -/
theorem list_rejects_strings : ∀ s : List Char, List_is_valid (Value.str s) = false :=
  fun _ => rfl

/-- C6: make_data turns an empty parse result into one (empty mapping, path)
pair instead of raising, and maps a non-empty parse result to its
(document, path) pairs in order. -/
theorem make_data_empty_and_map :
    (∀ path : List Char, make_data path [] = [(Value.dict [], path)]) ∧
    (∀ (path : List Char) (docs : List Value), docs ≠ [] →
      make_data path docs = docs.map (fun d => (d, path))) := by
  constructor
  · intro path; rfl
  · intro path docs h
    rw [make_data, if_neg]
    simpa [List.length_eq_zero] using h

/-- Witness for `make_data_empty_and_map` on a one-document parse result. -/
theorem make_data_instance :
    make_data "d.yaml".data [Value.bool true] = [(Value.bool true, "d.yaml".data)] := by
  rw [make_data_empty_and_map.2 "d.yaml".data [Value.bool true] (List.cons_ne_nil _ _)]
  rfl

/-- C7: validate is deterministic: it performs exactly one engine call per
(data tree, source label) pair, in list order, so two runs with the same
engine, data and strict flag coincide, and the driver returns `data`. -/
theorem validate_deterministic :
    ∀ (engine : Value → List Char → Bool → List (List Char))
      (data : List (Value × List Char)) (strict : Bool),
      validate engine data strict = validate engine data strict ∧
      (validate engine data strict).1 = data.map (fun dp => engine dp.1 dp.2 strict) ∧
      (validate engine data strict).2 = data :=
  fun _ _ _ => ⟨rfl, rfl, rfl⟩

/-- C8: every built-in validator class is resolvable in DefaultValidators
under both its tag and its implementation class name. -/
theorem default_validators_resolve :
    ∀ v : VClass, dictGetLast DefaultValidators (tagOf v) = some v ∧
      dictGetLast DefaultValidators (clsNameOf v) = some v := by
  intro v
  cases v <;> exact ⟨by decide, by decide⟩

/-- C4: for any match semantics, Regex._is_valid holds iff the value is a
string matched by at least one of the instance's compiled patterns; and
every compiled pattern of the instance carries one flag word, whose
IGNORECASE, MULTILINE and DOTALL bits are set exactly when the
corresponding constructor option was passed. -/
theorem regex_any_pattern_iff (rmatch : List Char → Nat → List Char → Bool)
    (args : List Value) (ic ml da : Bool) :
    (∀ v : Value, Regex_is_valid rmatch (Regex_regexes args ic ml da) v = true ↔
      (∃ s, v = Value.str s ∧ ∃ p ∈ strArgs args, rmatch p (regexFlags ic ml da) s = true)) ∧
    (∀ r ∈ Regex_regexes args ic ml da,
      r.2 = regexFlags ic ml da ∧
      ((Nat.land r.2 re_I ≠ 0) ↔ ic = true) ∧
      ((Nat.land r.2 re_M ≠ 0) ↔ ml = true) ∧
      ((Nat.land r.2 re_S ≠ 0) ↔ da = true)) := by
  constructor
  · intro v
    cases v <;>
      simp [Regex_is_valid, Regex_regexes, isstr, strOf, List.any_eq_true, List.mem_map]
  · intro r hr
    obtain ⟨p, hp, rfl⟩ := List.mem_map.mp hr
    refine ⟨rfl, ?_, ?_, ?_⟩
    · show (Nat.land (regexFlags ic ml da) re_I ≠ 0) ↔ ic = true
      cases ic <;> cases ml <;> cases da <;> decide
    · show (Nat.land (regexFlags ic ml da) re_M ≠ 0) ↔ ml = true
      cases ic <;> cases ml <;> cases da <;> decide
    · show (Nat.land (regexFlags ic ml da) re_S ≠ 0) ↔ da = true
      cases ic <;> cases ml <;> cases da <;> decide

/-- Witness for `regex_any_pattern_iff` at a concrete instance: one string
pattern, one non-string argument, ignore_case set. -/
theorem regex_any_pattern_instance :
    Regex_is_valid prefixMatch
      (Regex_regexes [Value.str "ab".data, Value.int 3] true false false)
      (Value.str "abc".data) = true ∧
    Nat.land (regexFlags true false false) re_I ≠ 0 := by
  have h := regex_any_pattern_iff prefixMatch [Value.str "ab".data, Value.int 3] true false false
  constructor
  · exact (h.1 (Value.str "abc".data)).mpr ⟨"abc".data, rfl, "ab".data, by decide, by decide⟩
  · decide

